import Mathlib

/-!
Shallow embedding of the financial ingestion and projection engine of the
Budget-Tool repository (src/budget_tool.py, src/webapp.py), together with
proofs checking the natural-language specification against the code.

Python floats are modelled as exact rationals (ℚ), Python ints as ℤ/ℕ,
`None` as `Option.none`.  Strings are modelled as Lean `String` with
ASCII-level implementations of the `str` methods the code uses.
-/

/-! ## Amortization engine (src/budget_tool.py lines 414-428 and 856-882) -/

/-- One month of the forward simulation used by `account_balance_after_months`
(line 427 of src/budget_tool.py): `balance = balance * (1 + rate) - principal_payment`,
iterated `months` times. -/
def simLoop (rate principal_payment : ℚ) : ℚ → ℕ → ℚ
  | balance, 0 => balance
  | balance, months + 1 => simLoop rate principal_payment (balance * (1 + rate) - principal_payment) months

/-- Model of `account_balance_after_months(balance, payment, apr, escrow, insurance, tax, months)`
(src/budget_tool.py lines 414-428): `rate = apr / 12 / 100`,
`principal_payment = payment - escrow - insurance - tax`, then `months` iterations of
`balance = balance * (1 + rate) - principal_payment`. -/
def account_balance_after_months (balance payment apr escrow insurance tax : ℚ) (months : ℕ) : ℚ :=
  simLoop (apr / 12 / 100) (payment - escrow - insurance - tax) balance months

/-- Model of the `while balance > 0 and months < 10000` loop of `months_to_payoff`
(src/budget_tool.py lines 873-882).  The loop body computes
`interest = balance * r`, `balance = balance + interest - principal_payment`,
increments `months`, returns `None` when the new balance is not strictly below
`prev`, and otherwise continues with `prev = balance`.  `fuel` stands for
`10000 - months`, so the loop condition `months < 10000` holds exactly when
`fuel` is positive. -/
def payoffLoop (r principal_payment balance prev : ℚ) (months fuel : ℕ) : Option ℕ :=
  match fuel with
  | 0 => some months
  | f + 1 =>
    if 0 < balance then
      let balance2 := balance + balance * r - principal_payment
      if prev ≤ balance2 then none
      else payoffLoop r principal_payment balance2 balance2 (months + 1) f
    else some months

/-- Model of `months_to_payoff(balance, payment, apr, escrow, insurance, tax)`
(src/budget_tool.py lines 856-882).  `balance = abs(balance)`;
`principal_payment = payment - escrow - insurance - tax`; if
`principal_payment <= 0` the result is `None`; if `apr <= 0` the result is
`int((balance + principal_payment - 1) // principal_payment)` (float floor
division, so the floor of the exact quotient); otherwise the simulation loop
runs with `r = apr / 12 / 100` starting from `months = 0`, `prev = balance`.
The Python defaults are `apr = escrow = insurance = tax = 0`. -/
def months_to_payoff (balance payment apr escrow insurance tax : ℚ) : Option ℤ :=
  let balance' := |balance|
  let principal_payment := payment - escrow - insurance - tax
  if principal_payment ≤ 0 then none
  else if apr ≤ 0 then some ⌊(balance' + principal_payment - 1) / principal_payment⌋
  else Option.map (fun n => (n : ℤ)) (payoffLoop (apr / 12 / 100) principal_payment balance' balance' 0 10000)

/-! ## Strings and dates -/

/-- ASCII model of Python `str.lower` applied to one character. -/
def lowerChar (c : Char) : Char :=
  if 'A' ≤ c ∧ c ≤ 'Z' then Char.ofNat (c.toNat + 32) else c

/-- ASCII model of Python `str.lower`. -/
def pyLower (s : String) : String := ⟨s.data.map lowerChar⟩

/-- Whitespace characters removed by Python `str.strip`. -/
def isSpaceChar (c : Char) : Bool :=
  c = ' ' ∨ c = '\t' ∨ c = '\n' ∨ c = '\r'

/-- Model of Python `str.strip`: drop leading and trailing whitespace. -/
def pyStrip (s : String) : String :=
  ⟨((s.data.dropWhile isSpaceChar).reverse.dropWhile isSpaceChar).reverse⟩

/-- Model of a Python `datetime.date` value: calendar year, month and day.
`datetime` guarantees `1 <= year <= 9999`, `1 <= month <= 12` and a valid day;
the model itself places no constraint and the date parser below checks them. -/
structure Date where
  year : ℕ
  month : ℕ
  day : ℕ
deriving DecidableEq, Repr

/-- Model of the `TransactionRecord` dataclass (src/budget_tool.py lines 39-46).
The `date` field keeps only the calendar date; the parser always produces
midnight timestamps and no consumer in scope reads a time of day. -/
structure TransactionRecord where
  date : Date
  description : String
  amount : ℚ
  category : Option String := none
deriving DecidableEq, Repr

/-! ## Recurring charge detector (src/budget_tool.py lines 133-182) -/

/-- Distance in days between two dates as used on line 169 of
src/budget_tool.py: `abs(r.date.day - base.date.day)` on the day-of-month
numbers. -/
def dayDist (d1 d2 : Date) : ℕ := ((d1.day : ℤ) - (d2.day : ℤ)).natAbs

/-- The match test of lines 167-172 of src/budget_tool.py: equal lowercased
descriptions, day of month within `day_window`, amount within the relative
`tolerance` of the base amount. -/
def matchPred (base r : TransactionRecord) (tolerance : ℚ) (day_window : ℕ) : Prop :=
  pyLower r.description = pyLower base.description ∧
    dayDist r.date base.date ≤ day_window ∧
    |r.amount - base.amount| ≤ |base.amount| * tolerance

instance (base r : TransactionRecord) (tolerance : ℚ) (day_window : ℕ) :
    Decidable (matchPred base r tolerance day_window) :=
  show Decidable (pyLower r.description = pyLower base.description ∧
      dayDist r.date base.date ≤ day_window ∧
      |r.amount - base.amount| ≤ |base.amount| * tolerance) from inferInstance

/-- The inner `for r in other` scan of lines 166-174 of src/budget_tool.py:
first transaction of the month matching `base` wins, its amount is returned. -/
def findMatch (base : TransactionRecord) (tolerance : ℚ) (day_window : ℕ) :
    List TransactionRecord → Option ℚ
  | [] => none
  | r :: rest =>
    if matchPred base r tolerance day_window then some r.amount
    else findMatch base tolerance day_window rest

/-- The `for other in statements[1:]` sweep of lines 164-177 of
src/budget_tool.py: collect one matched amount per subsequent month, aborting
with `none` at the first month with no match. -/
def sweepMonths (base : TransactionRecord) (tolerance : ℚ) (day_window : ℕ) :
    List (List TransactionRecord) → Option (List ℚ)
  | [] => some []
  | month :: more =>
    match findMatch base tolerance day_window month with
    | none => none
    | some a => (sweepMonths base tolerance day_window more).map (fun l => a :: l)

/-- Dedup key of line 159 of src/budget_tool.py:
`(base.description.lower(), base.date.day)`. -/
def anchorKey (t : TransactionRecord) : String × ℕ := (pyLower t.description, t.date.day)

/-- The `for base in first_month` loop of lines 158-180 of src/budget_tool.py,
carrying the `seen` set of already-processed anchor keys.  An anchor whose
sweep covers every subsequent month contributes
`(base.description, abs(mean of anchor and matched amounts), base.category)`. -/
def anchorLoop (tolerance : ℚ) (day_window : ℕ) (rest : List (List TransactionRecord)) :
    List TransactionRecord → List (String × ℕ) → List (String × ℚ × Option String)
  | [], _ => []
  | base :: more, seen =>
    if anchorKey base ∈ seen then anchorLoop tolerance day_window rest more seen
    else
      match sweepMonths base tolerance day_window rest with
      | none => anchorLoop tolerance day_window rest more (anchorKey base :: seen)
      | some matched =>
        (base.description, |(base.amount :: matched).sum / ((base.amount :: matched).length : ℚ)|,
            base.category) :: anchorLoop tolerance day_window rest more (anchorKey base :: seen)

/-- Model of `find_recurring_expenses(statements, tolerance, day_window)`
(src/budget_tool.py lines 133-182).  The Python defaults are
`tolerance = 0.1`, `day_window = 0`.  Empty input yields an empty list;
otherwise the first month anchors the search. -/
def find_recurring_expenses (statements : List (List TransactionRecord))
    (tolerance : ℚ) (day_window : ℕ) : List (String × ℚ × Option String) :=
  match statements with
  | [] => []
  | first_month :: rest => anchorLoop tolerance day_window rest first_month []

/-! ## One-time expense store (src/budget_tool.py lines 701-718) -/

/-- Character for one decimal digit, used by the zero-padded ISO fields. -/
def digitChar (n : ℕ) : Char := Char.ofNat (48 + n)

/-- Two-digit zero-padded decimal field, as printed by `date.isoformat` /
`datetime.isoformat` for month, day, hour, minute and second (all < 100 for
every representable Python value). -/
def twoDigits (n : ℕ) : List Char := [digitChar (n / 10 % 10), digitChar (n % 10)]

/-- Four-digit zero-padded decimal field, as printed for the year
(`datetime` years satisfy `1 <= year <= 9999`). -/
def fourDigits (n : ℕ) : List Char :=
  [digitChar (n / 1000 % 10), digitChar (n / 100 % 10), digitChar (n / 10 % 10), digitChar (n % 10)]

/-- Model of `date.isoformat()`: `YYYY-MM-DD`, always ten characters. -/
def dateIsoData (d : Date) : List Char :=
  fourDigits d.year ++ '-' :: twoDigits d.month ++ '-' :: twoDigits d.day

/-- Model of a Python `datetime` value as far as the code in scope uses one:
a calendar date plus a time of day. -/
structure PyDateTime where
  date : Date
  hour : ℕ
  minute : ℕ
  second : ℕ
deriving DecidableEq, Repr

/-- Model of `datetime.isoformat()` for whole-second values:
`YYYY-MM-DDTHH:MM:SS`. -/
def datetimeIsoData (t : PyDateTime) : List Char :=
  dateIsoData t.date ++ 'T' :: (twoDigits t.hour ++ ':' :: twoDigits t.minute ++ ':' :: twoDigits t.second)

/-- One row of the `one_time_expenses` table: the schema (src/budget_tool.py
lines 305-312) stores `description TEXT`, `amount REAL`, `created_at TEXT`,
with `UNIQUE(description, created_at)`.  The auto-increment `id` plays no part
in the modelled behaviour. -/
structure OneTimeRow where
  description : String
  amount : ℚ
  created_at : String
deriving DecidableEq, Repr

/-- SQLite `substr(s, 1, 10)`: the first ten characters. -/
def sqlSubstr10 (s : String) : String := ⟨s.data.take 10⟩

/-- The `SELECT 1 FROM one_time_expenses WHERE description=? AND amount=? AND
substr(created_at,1,10)=?` test of src/budget_tool.py lines 705-709, with the
query parameters `desc`, `abs(amount)` and the date part of `created_at`. -/
def oneTimeMatches (desc : String) (amount : ℚ) (date_part : String) (r : OneTimeRow) : Prop :=
  r.description = desc ∧ r.amount = |amount| ∧ sqlSubstr10 r.created_at = date_part

instance (desc : String) (amount : ℚ) (date_part : String) (r : OneTimeRow) :
    Decidable (oneTimeMatches desc amount date_part r) :=
  show Decidable (r.description = desc ∧ r.amount = |amount| ∧
      sqlSubstr10 r.created_at = date_part) from inferInstance

/-- Model of `add_one_time_expense(desc, amount, created_at)`
(src/budget_tool.py lines 701-718) acting on the list of stored rows: if no
row matches `(desc, abs(amount), created_at.date().isoformat())`, the row
`(desc, abs(amount), created_at.isoformat())` is inserted, except that
`INSERT OR IGNORE` drops the insert when a stored row already has the same
`(description, created_at)` (the table's UNIQUE constraint). -/
def add_one_time_expense (desc : String) (amount : ℚ) (created_at : PyDateTime)
    (db : List OneTimeRow) : List OneTimeRow :=
  let date_part : String := ⟨dateIsoData created_at.date⟩
  if ∃ r ∈ db, oneTimeMatches desc amount date_part r then db
  else if ∃ r ∈ db, r.description = desc ∧ r.created_at = String.mk (datetimeIsoData created_at) then db
  else db ++ [⟨desc, |amount|, ⟨datetimeIsoData created_at⟩⟩]

/-! ## Forecast aggregator (src/budget_tool.py lines 1164-1211) -/

/-- One row of the `accounts` table in the column order of `get_all_accounts`
(src/budget_tool.py lines 397-405): name, balance, monthly_payment, type,
apr, escrow, insurance, tax. -/
structure Account where
  name : String
  balance : ℚ
  monthly_payment : ℚ
  type : String
  apr : ℚ
  escrow : ℚ
  insurance : ℚ
  tax : ℚ
deriving DecidableEq, Repr

/-- The aggregate bank balance `total_bank` of src/budget_tool.py line 1174:
sum of the balances of the accounts of type `"Bank"`. -/
def totalBank (accounts : List Account) : ℚ :=
  ((accounts.filter (fun r => r.type = "Bank")).map (fun r => r.balance)).sum

/-- The `bank_count` of src/budget_tool.py line 1175: number of accounts of
type `"Bank"`. -/
def bankCount (accounts : List Account) : ℕ :=
  (accounts.filter (fun r => r.type = "Bank")).length

/-- The projected balance computed for one account row by `forecast_accounts`
(src/budget_tool.py lines 1178-1191): a `"Bank"` row receives
`balance + net * months * share` where `share` is `balance / total_bank` when
`total_bank` is nonzero (Python truthiness) and `1 / max(bank_count, 1)`
otherwise; every other row is projected with `account_balance_after_months`. -/
def accountFuture (total_bank : ℚ) (bank_count : ℕ) (net : ℚ) (months : ℕ) (row : Account) : ℚ :=
  if row.type = "Bank" then
    let share := if total_bank ≠ 0 then row.balance / total_bank else 1 / ((max bank_count 1 : ℕ) : ℚ)
    row.balance + net * months * share
  else
    account_balance_after_months row.balance row.monthly_payment row.apr row.escrow
      row.insurance row.tax months

/-- Model of the balance computation of `forecast_accounts(months)`
(src/budget_tool.py lines 1164-1211): for each account row, the projected
future balance.  The surrounding I/O — reading the rows, `calc_totals`
providing `net`, formatting and partitioning the printed lines — is outside
the engine; the rows and `net` are parameters here. -/
def forecast_accounts (accounts : List Account) (net : ℚ) (months : ℕ) : List (Account × ℚ) :=
  accounts.map (fun row => (row, accountFuture (totalBank accounts) (bankCount accounts) net months row))

/-- Sample account row used to instantiate the forecast theorem on concrete
data: a `"Bank"` account holding 100. -/
def sampleBankAccount : Account := ⟨"Checking", 100, 0, "Bank", 0, 0, 0, 0⟩

/-! ## Statement parser (src/budget_tool.py lines 49-130)

The file/stream handling and `csv` delimiter sniffing of lines 51-72 are I/O
over an external library; the model below starts from the list of rows the
`csv.reader` produced (`rows`, line 69) and covers lines 74-130. -/

/-- Decimal digit test. -/
def isDigitChar (c : Char) : Bool := '0' ≤ c ∧ c ≤ '9'

/-- Value of a list of decimal digit characters. -/
def digitsVal (l : List Char) : ℕ := l.foldl (fun a c => 10 * a + (c.toNat - 48)) 0

/-- Substring containment, as Python `needle in hay`. -/
def containsSub (needle hay : String) : Bool :=
  hay.data.tails.any (fun t => needle.data.isPrefixOf t)

/-- Split a character list on a separator, as Python `str.split` with a
one-character separator. -/
def splitChar (sep : Char) (l : List Char) : List (List Char) :=
  l.foldr
    (fun c acc =>
      if c = sep then [] :: acc
      else
        match acc with
        | [] => [[c]]
        | g :: gs => (c :: g) :: gs)
    [[]]

/-- Gregorian leap-year rule, as `datetime` uses. -/
def isLeapYear (y : ℕ) : Bool := y % 4 = 0 ∧ (y % 100 ≠ 0 ∨ y % 400 = 0)

/-- Days in a month, as `datetime` validates. -/
def daysInMonth (y m : ℕ) : ℕ :=
  if m = 2 then (if isLeapYear y then 29 else 28)
  else if m = 4 ∨ m = 6 ∨ m = 9 ∨ m = 11 then 30
  else 31

/-- Build a date after the range checks `datetime` performs:
`1 <= year <= 9999`, `1 <= month <= 12`, `1 <= day <= days in month`. -/
def mkValidDate (y m d : ℕ) : Option Date :=
  if 1 ≤ y ∧ y ≤ 9999 ∧ 1 ≤ m ∧ m ≤ 12 ∧ 1 ≤ d ∧ d ≤ daysInMonth y m then some ⟨y, m, d⟩
  else none

/-- Dash-separated date, covering both `datetime.fromisoformat` (`YYYY-MM-DD`)
and `strptime` with `"%Y-%m-%d"` (which also accepts unpadded fields). -/
def tryIsoDate (s : String) : Option Date :=
  match splitChar '-' s.data with
  | [ys, ms, ds] =>
    if ys.all isDigitChar ∧ ms.all isDigitChar ∧ ds.all isDigitChar ∧
        1 ≤ ys.length ∧ ys.length ≤ 4 ∧ 1 ≤ ms.length ∧ ms.length ≤ 2 ∧
        1 ≤ ds.length ∧ ds.length ≤ 2 then
      mkValidDate (digitsVal ys) (digitsVal ms) (digitsVal ds)
    else none
  | _ => none

/-- Compact date, `strptime` with `"%Y%m%d"`: exactly eight digits. -/
def tryCompactDate (s : String) : Option Date :=
  if s.data.all isDigitChar ∧ s.data.length = 8 then
    mkValidDate (digitsVal (s.data.take 4)) (digitsVal ((s.data.drop 4).take 2))
      (digitsVal (s.data.drop 6))
  else none

/-- US date, `strptime` with `"%m/%d/%Y"` (fields may be unpadded). -/
def tryUSDate (s : String) : Option Date :=
  match splitChar '/' s.data with
  | [ms, ds, ys] =>
    if ms.all isDigitChar ∧ ds.all isDigitChar ∧ ys.all isDigitChar ∧
        1 ≤ ms.length ∧ ms.length ≤ 2 ∧ 1 ≤ ds.length ∧ ds.length ≤ 2 ∧
        1 ≤ ys.length ∧ ys.length ≤ 4 then
      mkValidDate (digitsVal ys) (digitsVal ms) (digitsVal ds)
    else none
  | _ => none

/-- The ordered date-format fallback chain of src/budget_tool.py lines
113-126: first format that parses wins, `None` if all fail. -/
def tryParseDate (s : String) : Option Date :=
  tryIsoDate s <|> tryCompactDate s <|> tryUSDate s

/-- The amount cleanup of line 127: `amt_str.replace("$", "").replace(",", "")`. -/
def cleanAmount (s : String) : String :=
  ⟨s.data.filter (fun c => !(c = '$' ∨ c = ','))⟩

/-- Magnitude part of Python `float(...)` on a decimal string: digits with an
optional single decimal point and at least one digit (exponent and
infinity/NaN spellings, which no statement export in scope uses, are not
modelled). -/
def pyFloatMag (l : List Char) : Option ℚ :=
  match l.drop (l.takeWhile isDigitChar).length with
  | [] => if (l.takeWhile isDigitChar).isEmpty then none else some ((digitsVal (l.takeWhile isDigitChar) : ℕ) : ℚ)
  | '.' :: r2 =>
    if r2.all isDigitChar ∧ ¬((l.takeWhile isDigitChar).isEmpty ∧ r2.isEmpty) then
      some (((digitsVal (l.takeWhile isDigitChar) : ℕ) : ℚ) + ((digitsVal r2 : ℕ) : ℚ) / 10 ^ r2.length)
    else none
  | _ => none

/-- Model of Python `float(str)`: optional surrounding whitespace and sign,
then a decimal magnitude; `none` models the `ValueError` the code does not
catch. -/
def pyFloat (s : String) : Option ℚ :=
  match (pyStrip s).data with
  | '+' :: rest => pyFloatMag rest
  | '-' :: rest => (pyFloatMag rest).map (fun q => -q)
  | l => pyFloatMag l

/-- Lookup in the per-row dict `{header[i]: row[i] for i in range(len(header))}`
with a default (`mapping.get(key, dflt)`): a later duplicate header name
overwrites an earlier one. -/
def mapGet (header row : List String) (k dflt : String) : String :=
  match (header.zip row).reverse.find? (fun p => p.1 == k) with
  | some p => p.2
  | none => dflt

/-- Same lookup without a default (`mapping.get(key)` returning `None` when
absent). -/
def mapGetOpt (header row : List String) (k : String) : Option String :=
  ((header.zip row).reverse.find? (fun p => p.1 == k)).map (fun p => p.2)

/-- The lowered and stripped first row (src/budget_tool.py line 77); empty
input has no header row. -/
def headerOf (rows : List (List String)) : List String :=
  match rows with
  | [] => []
  | first :: _ => first.map (fun c => pyStrip (pyLower c))

/-- Header detection (line 78): the first row is a header only if it contains
both an `amount` and a `description` cell. -/
def hasHeaderOf (rows : List (List String)) : Bool :=
  (headerOf rows).contains "amount" && (headerOf rows).contains "description"

/-- Category column detection (lines 80-85): first header cell containing
`category` as a substring, only looked for when a header is present. -/
def catKeyOf (rows : List (List String)) : Option String :=
  if hasHeaderOf rows then (headerOf rows).find? (fun h => containsSub "category" h) else none

/-- The data rows `rows[start:]` (line 79): all rows, or all but the header. -/
def bodyOf (rows : List (List String)) : List (List String) :=
  if hasHeaderOf rows then rows.tail else rows

/-- Field extraction for one data row (lines 91-112), yielding
`(date_str, desc, amt_str, category)`.  With a header, building the dict
`{header[i]: row[i]}` raises `IndexError` (modelled as `none`) when the row is
shorter than the header; the date column is the first of `date`,
`posting date`, `effective date`, `transaction date` present in the header,
falling back to column 0. -/
def extractFields (has_header : Bool) (header : List String) (category_key : Option String)
    (row : List String) : Option (String × String × String × Option String) :=
  if has_header then
    if row.length < header.length then none
    else
      some
        (match ["date", "posting date", "effective date", "transaction date"].find?
            (fun k => header.contains k) with
          | some k => mapGet header row k (row.getD 0 "")
          | none => row.getD 0 "",
         mapGet header row "description" (row.getD 1 ""),
         mapGet header row "amount" (row.getD 2 ""),
         match category_key with
         | some k => mapGetOpt header row k
         | none => none)
  else some (row.getD 0 "", row.getD 1 "", row.getD 2 "", none)

/-- Processing of one data row (lines 88-129).  `none` models an uncaught
exception aborting the whole parse; `some none` a row skipped by `continue`;
`some (some r)` an appended record.  A row with fewer than three cells is
skipped; an unparsable date is skipped; an unparsable amount raises. -/
def processRow (has_header : Bool) (header : List String) (category_key : Option String)
    (row : List String) : Option (Option TransactionRecord) :=
  if row.length < 3 then some none
  else
    match extractFields has_header header category_key row with
    | none => none
    | some (date_str, desc, amt_str, category) =>
      match tryParseDate date_str with
      | none => some none
      | some dt =>
        match pyFloat (cleanAmount amt_str) with
        | none => none
        | some amt => some (some ⟨dt, pyStrip desc, amt, category.map pyStrip⟩)

/-- The `for row in rows[start:]` loop (line 88): records in input order, an
exception in any row aborting the whole parse. -/
def parseLoop (has_header : Bool) (header : List String) (category_key : Option String) :
    List (List String) → Option (List TransactionRecord)
  | [] => some []
  | row :: rest =>
    match processRow has_header header category_key row with
    | none => none
    | some none => parseLoop has_header header category_key rest
    | some (some r) => (parseLoop has_header header category_key rest).map (fun l => r :: l)

/-- Model of `parse_statement_csv` (src/budget_tool.py lines 49-130) from the
row list the `csv` reader produced: empty input gives an empty record list,
otherwise the data rows are processed under the detected header.  `none`
models an uncaught per-row exception aborting the parse. -/
def parse_statement_csv (rows : List (List String)) : Option (List TransactionRecord) :=
  match rows with
  | [] => some []
  | _ :: _ => parseLoop (hasHeaderOf rows) (headerOf rows) (catKeyOf rows) (bodyOf rows)

/-- Per-row precondition used to state when the parse cannot raise on the
amount field: whenever the row's fields are extracted and its date parses, its
cleaned amount string must be a number. -/
def rowAmountOk (has_header : Bool) (header : List String) (category_key : Option String)
    (row : List String) : Bool :=
  match extractFields has_header header category_key row with
  | none => true
  | some (date_str, _, amt_str, _) =>
    !(tryParseDate date_str).isSome || (pyFloat (cleanAmount amt_str)).isSome

/-! ## Theorems -/

theorem simLoop_eq_iterate (rate pp : ℚ) (b : ℚ) (n : ℕ) :
    simLoop rate pp b n = (fun x => x * (1 + rate) - pp)^[n] b := by
  induction n generalizing b with
  | zero => rfl
  | succ n ih =>
    rw [simLoop, ih, Function.iterate_succ_apply]

theorem simLoop_succ_last (rate pp : ℚ) (b : ℚ) (n : ℕ) :
    simLoop rate pp b (n + 1) = simLoop rate pp b n * (1 + rate) - pp := by
  rw [simLoop_eq_iterate, simLoop_eq_iterate, Function.iterate_succ_apply']

theorem simLoop_zero_rate (p : ℚ) (b : ℚ) (n : ℕ) :
    simLoop 0 p b n = b - p * n := by
  induction n generalizing b with
  | zero => simp [simLoop]
  | succ n ih =>
    rw [simLoop, ih]
    push_cast
    ring

/-- C5: `account_balance_after_months` applies exactly `months` steps of
`balance = balance * (1 + apr/12/100) - (payment - escrow - insurance - tax)`,
with no early termination and no floor (the iterate is total and signed), and
for zero APR and zero escrow/insurance/tax it equals
`balance - payment * months`. -/
theorem account_balance_after_months_spec :
    (∀ (balance payment apr escrow insurance tax : ℚ) (months : ℕ),
      account_balance_after_months balance payment apr escrow insurance tax months =
        (fun b => b * (1 + apr / 12 / 100) - (payment - escrow - insurance - tax))^[months] balance)
    ∧ ∀ (balance payment : ℚ) (months : ℕ),
      account_balance_after_months balance payment 0 0 0 0 months =
        balance - payment * months := by
  constructor
  · intro balance payment apr escrow insurance tax months
    exact simLoop_eq_iterate _ _ _ _
  · intro balance payment months
    unfold account_balance_after_months
    rw [show (0 : ℚ) / 12 / 100 = 0 by norm_num, simLoop_zero_rate]
    ring

/-- C6: a nonpositive principal payment (payment entirely consumed by escrow,
insurance and tax) makes `months_to_payoff` return `None`, whatever the
balance and APR. -/
theorem months_to_payoff_nonpos_principal (balance payment apr escrow insurance tax : ℚ)
    (h : payment - escrow - insurance - tax ≤ 0) :
    months_to_payoff balance payment apr escrow insurance tax = none := by
  unfold months_to_payoff
  rw [if_pos h]

theorem months_to_payoff_nonpos_principal_witness :
    months_to_payoff 500 100 0 50 30 40 = none :=
  months_to_payoff_nonpos_principal 500 100 0 50 30 40 (by norm_num)

theorem floor_add_sub_one_div_eq_ceil (b p : ℕ) (hp : 0 < p) :
    ⌊((b : ℚ) + p - 1) / p⌋ = ⌈(b : ℚ) / p⌉ := by
  have hp' : (0 : ℚ) < p := by exact_mod_cast hp
  have h1 : (b : ℚ) ≤ (⌈(b : ℚ) / p⌉ : ℚ) * p := by
    rw [← div_le_iff₀ hp']
    exact Int.le_ceil _
  have h2 : ((⌈(b : ℚ) / p⌉ : ℚ) - 1) * p < b := by
    rw [← lt_div_iff₀ hp']
    have := Int.ceil_lt_add_one ((b : ℚ) / p)
    linarith
  have hz2 : ⌈(b : ℚ) / p⌉ * (p : ℤ) < (b : ℤ) + p := by
    have : (⌈(b : ℚ) / p⌉ : ℚ) * p < (b : ℚ) + p := by linarith
    exact_mod_cast this
  have hz2' : ⌈(b : ℚ) / p⌉ * (p : ℤ) ≤ (b : ℤ) + p - 1 := by linarith
  rw [Int.floor_eq_iff]
  constructor
  · rw [le_div_iff₀ hp']
    calc (⌈(b : ℚ) / p⌉ : ℚ) * p ≤ ((b : ℤ) + p - 1 : ℤ) := by exact_mod_cast hz2'
    _ = (b : ℚ) + p - 1 := by push_cast; ring
  · rw [div_lt_iff₀ hp']
    have : ((⌈(b : ℚ) / p⌉ : ℚ) + 1) * p = ⌈(b : ℚ) / p⌉ * p + p := by ring
    linarith

/-- C1 (amended): for an integer balance and a positive integer payment,
`months_to_payoff(balance, payment, 0)` is exactly `ceil(balance / payment)`;
in particular a payment that exactly divides the balance is not charged an
extra month.  (For fractional inputs the float idiom
`(balance + payment - 1) // payment` is not the ceiling; see the
counterexample.) -/
theorem months_to_payoff_zero_apr_int (b p : ℕ) (hp : 0 < p) :
    months_to_payoff (b : ℚ) (p : ℚ) 0 0 0 0 = some ⌈(b : ℚ) / p⌉ := by
  have hp' : (0 : ℚ) < p := by exact_mod_cast hp
  unfold months_to_payoff
  rw [if_neg (by simpa using not_le.mpr hp'), if_pos le_rfl]
  have habs : |(b : ℚ)| = (b : ℚ) := abs_of_nonneg (by positivity)
  rw [show (p : ℚ) - 0 - 0 - 0 = (p : ℚ) by ring, habs, floor_add_sub_one_div_eq_ceil b p hp]

theorem months_to_payoff_zero_apr_int_witness :
    months_to_payoff ((1000 : ℕ) : ℚ) ((100 : ℕ) : ℚ) 0 0 0 0 = some ⌈((1000 : ℕ) : ℚ) / ((100 : ℕ) : ℚ)⌉ :=
  months_to_payoff_zero_apr_int 1000 100 (by norm_num)

/-- C1 counterexample: with `balance = 1` and `payment = 1/2` the code returns
1 month, but `ceil(balance / payment) = 2` (paying 1/2 per month on a balance
of 1 takes two months). -/
theorem months_to_payoff_zero_apr_counterexample :
    months_to_payoff 1 (1/2) 0 0 0 0 = some 1 ∧ (⌈(1 : ℚ) / (1/2)⌉ : ℤ) = 2 := by
  constructor
  · unfold months_to_payoff
    rw [if_neg (by norm_num), if_pos le_rfl]
    norm_num
  · rw [show (1 : ℚ) / (1/2) = ((2 : ℤ) : ℚ) by norm_num]
    exact Int.ceil_intCast 2

theorem payoffLoop_exit (r pp b prev : ℚ) (months fuel : ℕ) (hb : ¬ 0 < b) :
    payoffLoop r pp b prev months fuel = some months := by
  cases fuel with
  | zero => rfl
  | succ f => simp [payoffLoop, hb]

theorem payoffLoop_step (r pp b prev : ℚ) (months f : ℕ) (hb : 0 < b)
    (hg : ¬ prev ≤ b + b * r - pp) :
    payoffLoop r pp b prev months (f + 1) =
      payoffLoop r pp (b + b * r - pp) (b + b * r - pp) (months + 1) f := by
  simp [payoffLoop, hb, hg]

theorem payoffLoop_invariant (r pp b0 : ℚ) :
    ∀ (fuel months M : ℕ),
      payoffLoop r pp (simLoop r pp b0 months) (simLoop r pp b0 months) months fuel = some M →
      M ≤ months + fuel ∧
        (∀ k, months ≤ k → k < M → simLoop r pp b0 (k + 1) < simLoop r pp b0 k) ∧
        (M < months + fuel → simLoop r pp b0 M ≤ 0) := by
  intro fuel
  induction fuel with
  | zero =>
    intro months M h
    have hM : months = M := by simpa [payoffLoop] using h
    subst hM
    exact ⟨le_rfl, fun k h1 h2 => absurd (h1.trans_lt h2) (lt_irrefl _), fun h => absurd h (by omega)⟩
  | succ f ih =>
    intro months M h
    by_cases hb : 0 < simLoop r pp b0 months
    · have hstep : simLoop r pp b0 (months + 1) =
          simLoop r pp b0 months + simLoop r pp b0 months * r - pp := by
        rw [simLoop_succ_last]; ring
      by_cases hg : simLoop r pp b0 months ≤
          simLoop r pp b0 months + simLoop r pp b0 months * r - pp
      · exfalso
        rw [payoffLoop, if_pos hb] at h
        simp only [if_pos hg] at h
        exact Option.noConfusion h
      · rw [payoffLoop_step _ _ _ _ _ _ hb hg, ← hstep] at h
        obtain ⟨h1, h2, h3⟩ := ih (months + 1) M h
        refine ⟨by omega, ?_, fun hM => h3 (by omega)⟩
        intro k hk1 hk2
        rcases Nat.eq_or_lt_of_le hk1 with hk | hk
        · subst hk
          rw [hstep]
          exact not_le.mp hg
        · exact h2 k (by omega) hk2
    · rw [payoffLoop_exit _ _ _ _ _ _ hb] at h
      have hM : months = M := by simpa using h
      subst hM
      exact ⟨by omega, fun k h1 h2 => absurd (h1.trans_lt h2) (lt_irrefl _),
        fun _ => le_of_not_lt hb⟩

theorem months_to_payoff_pos_apr (balance payment apr escrow insurance tax : ℚ)
    (hapr : 0 < apr) (hpp : 0 < payment - escrow - insurance - tax) :
    months_to_payoff balance payment apr escrow insurance tax =
      Option.map (fun n => (n : ℤ))
        (payoffLoop (apr / 12 / 100) (payment - escrow - insurance - tax) |balance| |balance| 0 10000) := by
  unfold months_to_payoff
  rw [if_neg (not_le.mpr hpp), if_neg (not_le.mpr hapr)]

theorem months_to_payoff_pos_apr_loop (balance payment apr escrow insurance tax : ℚ) (m : ℕ)
    (hapr : 0 < apr) (hpp : 0 < payment - escrow - insurance - tax)
    (hm : months_to_payoff balance payment apr escrow insurance tax = some (m : ℤ)) :
    payoffLoop (apr / 12 / 100) (payment - escrow - insurance - tax) |balance| |balance| 0 10000 =
      some m := by
  rw [months_to_payoff_pos_apr _ _ _ _ _ _ hapr hpp] at hm
  rcases hpl : payoffLoop (apr / 12 / 100) (payment - escrow - insurance - tax) |balance| |balance| 0 10000 with _ | n
  · rw [hpl] at hm
    exact Option.noConfusion hm
  · rw [hpl] at hm
    have hcast : (n : ℤ) = (m : ℤ) := Option.some.inj hm
    have : n = m := by exact_mod_cast hcast
    rw [this]

/-- C3: with positive APR and positive principal payment, whenever
`months_to_payoff` returns a month count `m`, the count is at most 10000 (the
loop performs at most 10000 iterations) and every simulated month's closing
balance was strictly below the previous one — equivalently, had any simulated
month failed to decrease the balance strictly, the convergence guard would
have returned `None` instead of a count. -/
theorem months_to_payoff_guard (balance payment apr escrow insurance tax : ℚ) (m : ℕ)
    (hapr : 0 < apr) (hpp : 0 < payment - escrow - insurance - tax)
    (hm : months_to_payoff balance payment apr escrow insurance tax = some (m : ℤ)) :
    m ≤ 10000 ∧ ∀ k, k < m →
      simLoop (apr / 12 / 100) (payment - escrow - insurance - tax) |balance| (k + 1) <
        simLoop (apr / 12 / 100) (payment - escrow - insurance - tax) |balance| k := by
  have hn := months_to_payoff_pos_apr_loop _ _ _ _ _ _ _ hapr hpp hm
  have h0 : simLoop (apr / 12 / 100) (payment - escrow - insurance - tax) |balance| 0 = |balance| := rfl
  rw [← h0] at hn
  obtain ⟨h1, h2, _⟩ := payoffLoop_invariant _ _ _ 10000 0 m hn
  exact ⟨by omega, fun k hk => h2 k (Nat.zero_le k) hk⟩

theorem months_to_payoff_eval_sample : months_to_payoff 1 3 1200 0 0 0 = some 1 := by
  unfold months_to_payoff
  rw [if_neg (by norm_num), if_neg (by norm_num), abs_one]
  norm_num
  rw [show (10000 : ℕ) = 9999 + 1 from rfl,
    payoffLoop_step _ _ _ _ _ _ (by norm_num) (by norm_num)]
  rw [payoffLoop_exit _ _ _ _ _ _ (by norm_num)]
  simp

theorem months_to_payoff_guard_witness :
    (1 : ℕ) ≤ 10000 ∧ ∀ k, k < 1 →
      simLoop (1200 / 12 / 100) (3 - 0 - 0 - 0) |(1 : ℚ)| (k + 1) <
        simLoop (1200 / 12 / 100) (3 - 0 - 0 - 0) |(1 : ℚ)| k :=
  months_to_payoff_guard 1 3 1200 0 0 0 1 (by norm_num) (by norm_num)
    months_to_payoff_eval_sample

/-- C9: the two amortization contracts are consistent — for a positive
balance, positive APR and positive principal payment, a finite payoff horizon
`m < 10000` reported by `months_to_payoff` makes
`account_balance_after_months` nonpositive after `m` months: both functions
iterate the same monthly recurrence. -/
theorem months_to_payoff_account_balance_after_months_consistent
    (balance payment apr escrow insurance tax : ℚ) (m : ℕ)
    (hb : 0 < balance) (hapr : 0 < apr) (hpp : 0 < payment - escrow - insurance - tax)
    (hm : months_to_payoff balance payment apr escrow insurance tax = some (m : ℤ))
    (hlt : m < 10000) :
    account_balance_after_months balance payment apr escrow insurance tax m ≤ 0 := by
  have hn := months_to_payoff_pos_apr_loop _ _ _ _ _ _ _ hapr hpp hm
  have h0 : simLoop (apr / 12 / 100) (payment - escrow - insurance - tax) |balance| 0 = |balance| := rfl
  rw [← h0] at hn
  obtain ⟨_, _, h3⟩ := payoffLoop_invariant _ _ _ 10000 0 m hn
  have := h3 (by omega)
  rwa [abs_of_pos hb] at this
  

theorem months_to_payoff_consistent_witness :
    account_balance_after_months 1 3 1200 0 0 0 1 ≤ 0 :=
  months_to_payoff_account_balance_after_months_consistent 1 3 1200 0 0 0 1
    (by norm_num) (by norm_num) (by norm_num) months_to_payoff_eval_sample (by norm_num)

theorem anchorLoop_amount_nonneg (tol : ℚ) (dw : ℕ) (rest : List (List TransactionRecord)) :
    ∀ (anchors : List TransactionRecord) (seen : List (String × ℕ))
      (c : String × ℚ × Option String), c ∈ anchorLoop tol dw rest anchors seen → 0 ≤ c.2.1 := by
  intro anchors
  induction anchors with
  | nil =>
    intro seen c hc
    simp [anchorLoop] at hc
  | cons base more ih =>
    intro seen c hc
    rw [anchorLoop] at hc
    split at hc
    · exact ih _ _ hc
    · split at hc
      · exact ih _ _ hc
      · rcases List.mem_cons.mp hc with h | h
        · subst h
          exact abs_nonneg _
        · exact ih _ _ h

theorem anchorLoop_mem (tol : ℚ) (dw : ℕ) (rest : List (List TransactionRecord))
    (t : TransactionRecord) (matched : List ℚ)
    (hsw : sweepMonths t tol dw rest = some matched) :
    ∀ (pre post : List TransactionRecord) (seen : List (String × ℕ)),
      (∀ u ∈ pre, anchorKey u ≠ anchorKey t) → anchorKey t ∉ seen →
      (t.description, |(t.amount :: matched).sum / ((t.amount :: matched).length : ℚ)|, t.category)
        ∈ anchorLoop tol dw rest (pre ++ t :: post) seen := by
  intro pre
  induction pre with
  | nil =>
    intro post seen _ hseen
    rw [List.nil_append, anchorLoop, if_neg hseen, hsw]
    exact List.mem_cons_self _ _
  | cons u pre ih =>
    intro post seen hpre hseen
    have hut : anchorKey u ≠ anchorKey t := hpre u (List.mem_cons_self u pre)
    have hpre' : ∀ v ∈ pre, anchorKey v ≠ anchorKey t :=
      fun v hv => hpre v (List.mem_cons_of_mem _ hv)
    have hseen' : anchorKey t ∉ anchorKey u :: seen := by
      simp only [List.mem_cons]
      push_neg
      exact ⟨fun h => hut h.symm, hseen⟩
    rw [List.cons_append, anchorLoop]
    by_cases hk : anchorKey u ∈ seen
    · rw [if_pos hk]
      exact ih post seen hpre' hseen
    · rw [if_neg hk]
      rcases hswu : sweepMonths u tol dw rest with _ | mu
      · exact ih post (anchorKey u :: seen) hpre' hseen'
      · exact List.mem_cons_of_mem _ (ih post (anchorKey u :: seen) hpre' hseen')

theorem findMatch_isSome (base : TransactionRecord) (tol : ℚ) (dw : ℕ) (htol : 0 ≤ tol) :
    ∀ month : List TransactionRecord,
      (∃ r ∈ month, r.description = base.description ∧ r.date.day = base.date.day ∧
        r.amount = base.amount) →
      ∃ a, findMatch base tol dw month = some a := by
  intro month
  induction month with
  | nil => rintro ⟨r, hr, -⟩; exact absurd hr (List.not_mem_nil r)
  | cons r rest ih =>
    rintro ⟨s, hs, hdesc, hday, hamt⟩
    by_cases hm : matchPred base r tol dw
    · exact ⟨r.amount, by rw [findMatch, if_pos hm]⟩
    · rcases List.mem_cons.mp hs with h | h
      · subst h
        exfalso
        apply hm
        refine ⟨by rw [hdesc], ?_, ?_⟩
        · unfold dayDist
          rw [hday]
          simp
        · rw [hamt]
          simpa using mul_nonneg (abs_nonneg base.amount) htol
      · obtain ⟨a, ha⟩ := ih ⟨s, h, hdesc, hday, hamt⟩
        exact ⟨a, by rw [findMatch, if_neg hm, ha]⟩

theorem sweepMonths_isSome (base : TransactionRecord) (tol : ℚ) (dw : ℕ) (htol : 0 ≤ tol) :
    ∀ rest : List (List TransactionRecord),
      (∀ p ∈ rest, ∃ r ∈ p, r.description = base.description ∧ r.date.day = base.date.day ∧
        r.amount = base.amount) →
      ∃ l, sweepMonths base tol dw rest = some l := by
  intro rest
  induction rest with
  | nil => exact fun _ => ⟨[], rfl⟩
  | cons p ps ih =>
    intro h
    obtain ⟨a, ha⟩ := findMatch_isSome base tol dw htol p (h p (List.mem_cons_self p ps))
    obtain ⟨l, hl⟩ := ih (fun q hq => h q (List.mem_cons_of_mem _ hq))
    exact ⟨a :: l, by rw [sweepMonths, ha, hl]; rfl⟩

/-- C4 (amended): every candidate reported by the recurring detector carries a
non-negative averaged amount (the absolute value of the mean of the anchor and
matched amounts); and an anchor-period charge is classified recurring —
whatever the sign of its amount — whenever no earlier anchor-period charge
shares its `(lowercased description, day-of-month)` dedup key and every
subsequent period contains a charge with the same description, the same
day of month and the same amount (tolerance non-negative).  Identical
description and amount alone do not suffice: with the default `day_window = 0`
a drifted day of month defeats the match (see the counterexample), and an
earlier same-key anchor swallows the charge. -/
theorem find_recurring_expenses_spec :
    (∀ (statements : List (List TransactionRecord)) (tol : ℚ) (dw : ℕ)
        (c : String × ℚ × Option String),
        c ∈ find_recurring_expenses statements tol dw → 0 ≤ c.2.1) ∧
    ∀ (first_month : List TransactionRecord) (rest : List (List TransactionRecord))
        (tol : ℚ) (dw : ℕ) (t : TransactionRecord) (pre post : List TransactionRecord),
        0 ≤ tol → first_month = pre ++ t :: post →
        (∀ u ∈ pre, anchorKey u ≠ anchorKey t) →
        (∀ p ∈ rest, ∃ r ∈ p, r.description = t.description ∧ r.date.day = t.date.day ∧
          r.amount = t.amount) →
        ∃ amt, 0 ≤ amt ∧
          (t.description, amt, t.category) ∈ find_recurring_expenses (first_month :: rest) tol dw := by
  constructor
  · intro statements tol dw c hc
    match statements with
    | [] => simp [find_recurring_expenses] at hc
    | first_month :: rest => exact anchorLoop_amount_nonneg tol dw rest first_month [] c hc
  · intro first_month rest tol dw t pre post htol hfm hpre hmatch
    obtain ⟨l, hl⟩ := sweepMonths_isSome t tol dw htol rest hmatch
    refine ⟨|(t.amount :: l).sum / ((t.amount :: l).length : ℚ)|, abs_nonneg _, ?_⟩
    subst hfm
    exact anchorLoop_mem tol dw rest t l hl pre post [] hpre (List.not_mem_nil _)

theorem find_recurring_expenses_spec_witness :
    ∃ amt, 0 ≤ amt ∧ ("Gym", amt, (none : Option String)) ∈
      find_recurring_expenses
        [[⟨⟨2024, 1, 1⟩, "Gym", -10, none⟩], [⟨⟨2024, 2, 1⟩, "Gym", -10, none⟩]] (1/10) 0 :=
  find_recurring_expenses_spec.2 [⟨⟨2024, 1, 1⟩, "Gym", -10, none⟩]
    [[⟨⟨2024, 2, 1⟩, "Gym", -10, none⟩]] (1/10) 0 ⟨⟨2024, 1, 1⟩, "Gym", -10, none⟩ [] []
    (by norm_num) rfl (by simp)
    (by
      intro p hp
      rw [List.mem_singleton] at hp
      subst hp
      exact ⟨⟨⟨2024, 2, 1⟩, "Gym", -10, none⟩, List.mem_singleton_self _, rfl, rfl, rfl⟩)

/-- C4 counterexample: a charge ("Gym", -10) present in both periods with
identical description and amount but a drifted day of month (day 1 versus
day 2) is not classified recurring under the default day_window = 0 — the
output is empty — refuting the claim that identical description and amount in
every period always suffice. -/
theorem find_recurring_expenses_day_drift_counterexample :
    find_recurring_expenses
      [[⟨⟨2024, 1, 1⟩, "Gym", -10, none⟩], [⟨⟨2024, 2, 2⟩, "Gym", -10, none⟩]] (1/10) 0 = [] := by
  decide

/-- C10: with exactly one period supplied, every transaction of that period
that is first with its `(lowercased description, day-of-month)` dedup key is
classified recurring — the sweep over the empty tail of periods is vacuous —
and its reported amount is the absolute value of its own amount. -/
theorem find_recurring_expenses_single_period (p : List TransactionRecord) (tol : ℚ) (dw : ℕ)
    (t : TransactionRecord) (pre post : List TransactionRecord)
    (hp : p = pre ++ t :: post) (hpre : ∀ u ∈ pre, anchorKey u ≠ anchorKey t) :
    (t.description, |t.amount|, t.category) ∈ find_recurring_expenses [p] tol dw := by
  subst hp
  have h := anchorLoop_mem tol dw [] t [] rfl pre post [] hpre (List.not_mem_nil _)
  simpa [find_recurring_expenses] using h

theorem find_recurring_expenses_single_period_witness :
    ("Rent", |(-1200 : ℚ)|, (none : Option String)) ∈
      find_recurring_expenses [[⟨⟨2024, 5, 5⟩, "Rent", -1200, none⟩]] (1/10) 0 :=
  find_recurring_expenses_single_period [⟨⟨2024, 5, 5⟩, "Rent", -1200, none⟩] (1/10) 0
    ⟨⟨2024, 5, 5⟩, "Rent", -1200, none⟩ [] [] rfl (by simp)

theorem dateIsoData_length (d : Date) : (dateIsoData d).length = 10 := by
  simp [dateIsoData, fourDigits, twoDigits]

theorem datetimeIso_take10 (t : PyDateTime) :
    sqlSubstr10 ⟨datetimeIsoData t⟩ = (⟨dateIsoData t.date⟩ : String) := by
  have h : (datetimeIsoData t).take 10 = dateIsoData t.date := by
    unfold datetimeIsoData
    rw [← dateIsoData_length t.date]
    exact List.take_left _ _
  unfold sqlSubstr10
  exact congrArg String.mk h

theorem add_one_time_expense_stable (desc : String) (amount : ℚ) (created_at : PyDateTime)
    (db : List OneTimeRow) :
    add_one_time_expense desc amount created_at (add_one_time_expense desc amount created_at db) =
      add_one_time_expense desc amount created_at db := by
  by_cases h1 : ∃ r ∈ db, oneTimeMatches desc amount ⟨dateIsoData created_at.date⟩ r
  · have e1 : add_one_time_expense desc amount created_at db = db := by
      unfold add_one_time_expense
      rw [if_pos h1]
    rw [e1, e1]
  · by_cases h2 : ∃ r ∈ db, r.description = desc ∧
        r.created_at = String.mk (datetimeIsoData created_at)
    · have e1 : add_one_time_expense desc amount created_at db = db := by
        unfold add_one_time_expense
        rw [if_neg h1, if_pos h2]
      rw [e1, e1]
    · have e1 : add_one_time_expense desc amount created_at db =
          db ++ [⟨desc, |amount|, ⟨datetimeIsoData created_at⟩⟩] := by
        unfold add_one_time_expense
        rw [if_neg h1, if_neg h2]
      rw [e1]
      have hmatch : oneTimeMatches desc amount ⟨dateIsoData created_at.date⟩
          (⟨desc, |amount|, ⟨datetimeIsoData created_at⟩⟩ : OneTimeRow) :=
        ⟨rfl, rfl, datetimeIso_take10 created_at⟩
      have h1' : ∃ r ∈ db ++ [(⟨desc, |amount|, ⟨datetimeIsoData created_at⟩⟩ : OneTimeRow)],
          oneTimeMatches desc amount ⟨dateIsoData created_at.date⟩ r :=
        ⟨⟨desc, |amount|, ⟨datetimeIsoData created_at⟩⟩, by simp, hmatch⟩
      unfold add_one_time_expense
      rw [if_pos h1']

/-- C7: recording a one-time candidate is idempotent on the stored state — a
second call of `add_one_time_expense` with the same description, amount and
datetime is a no-op for every prior state, because the dedup query on
`(description, abs(amount), date-part-of-created_at)` finds the row the first
call stored; and two calls starting from the empty store leave exactly the one
row `(description, abs(amount), created_at.isoformat())`. -/
theorem add_one_time_expense_idempotent :
    (∀ (db : List OneTimeRow) (desc : String) (amount : ℚ) (created_at : PyDateTime),
      add_one_time_expense desc amount created_at
          (add_one_time_expense desc amount created_at db) =
        add_one_time_expense desc amount created_at db) ∧
    ∀ (desc : String) (amount : ℚ) (created_at : PyDateTime),
      add_one_time_expense desc amount created_at
          (add_one_time_expense desc amount created_at []) =
        [⟨desc, |amount|, ⟨datetimeIsoData created_at⟩⟩] := by
  constructor
  · intro db desc amount created_at
    exact add_one_time_expense_stable desc amount created_at db
  · intro desc amount created_at
    have e0 : add_one_time_expense desc amount created_at [] =
        [⟨desc, |amount|, ⟨datetimeIsoData created_at⟩⟩] := by
      unfold add_one_time_expense
      rw [if_neg (by simp [List.not_mem_nil]), if_neg (by simp [List.not_mem_nil])]
      rw [List.nil_append]
    rw [add_one_time_expense_stable, e0]

/-- C8: in the forecast, every `"Bank"` account row receives a share of the
aggregate net cash flow proportional to `balance / totalBank` when the
aggregate bank balance is nonzero, and an equal `net * months / bankCount`
share when the aggregate bank balance is zero (with at least one bank
account). -/
theorem forecast_accounts_bank_share (accounts : List Account) (net : ℚ) (months : ℕ)
    (row : Account) (f : ℚ)
    (hmem : (row, f) ∈ forecast_accounts accounts net months)
    (hbank : row.type = "Bank") :
    (totalBank accounts ≠ 0 →
      f = row.balance + net * months * (row.balance / totalBank accounts)) ∧
    (totalBank accounts = 0 → 1 ≤ bankCount accounts →
      f = row.balance + net * months / (bankCount accounts : ℚ)) := by
  unfold forecast_accounts at hmem
  rw [List.mem_map] at hmem
  obtain ⟨a, ha, heq⟩ := hmem
  rw [Prod.mk.injEq] at heq
  obtain ⟨h1, h2⟩ := heq
  subst h1
  subst h2
  constructor
  · intro htb
    unfold accountFuture
    rw [if_pos hbank]
    simp only [if_pos htb]
  · intro htb hcount
    unfold accountFuture
    rw [if_pos hbank]
    have hne : ¬ (totalBank accounts ≠ 0) := by simpa using htb
    simp only [if_neg hne]
    rw [max_eq_left hcount, mul_one_div]

theorem forecast_accounts_bank_share_witness :
    accountFuture (totalBank [sampleBankAccount]) (bankCount [sampleBankAccount]) 12 2
        sampleBankAccount =
      sampleBankAccount.balance +
        12 * (2 : ℕ) * (sampleBankAccount.balance / totalBank [sampleBankAccount]) :=
  (forecast_accounts_bank_share [sampleBankAccount] 12 2 sampleBankAccount _
      (List.mem_singleton_self _) rfl).1
    (by norm_num [totalBank, sampleBankAccount])

theorem extractFields_some (hh : Bool) (header : List String) (ck : Option String)
    (row : List String) (h : hh = true → header.length ≤ row.length) :
    ∃ f, extractFields hh header ck row = some f := by
  have hs : (extractFields hh header ck row).isSome = true := by
    cases hh with
    | false => rfl
    | true =>
      unfold extractFields
      rw [if_pos rfl, if_neg (not_lt.mpr (h rfl))]
      rfl
  exact Option.isSome_iff_exists.mp hs

theorem processRow_some (hh : Bool) (header : List String) (ck : Option String)
    (row : List String)
    (hw1 : hh = true → 3 ≤ row.length → header.length ≤ row.length)
    (ha1 : rowAmountOk hh header ck row = true) :
    ∃ o, processRow hh header ck row = some o := by
  by_cases hlen : row.length < 3
  · refine ⟨none, ?_⟩
    unfold processRow
    rw [if_pos hlen]
  · obtain ⟨⟨date_str, desc, amt_str, category⟩, hf⟩ :=
      extractFields_some hh header ck row (fun hhh => hw1 hhh (not_lt.mp hlen))
    rcases hd : tryParseDate date_str with _ | dt
    · refine ⟨none, ?_⟩
      unfold processRow
      rw [if_neg hlen]
      simp only [hf, hd]
    · have hamt : (pyFloat (cleanAmount amt_str)).isSome = true := by
        unfold rowAmountOk at ha1
        rw [hf] at ha1
        simp only [hd, Option.isSome_some, Bool.not_true, Bool.false_or] at ha1
        exact ha1
      obtain ⟨q, hq⟩ := Option.isSome_iff_exists.mp hamt
      refine ⟨some ⟨dt, pyStrip desc, q, category.map pyStrip⟩, ?_⟩
      unfold processRow
      rw [if_neg hlen]
      simp only [hf, hd, hq]

theorem parseLoop_total (hh : Bool) (header : List String) (ck : Option String) :
    ∀ body : List (List String),
      (∀ row ∈ body, hh = true → 3 ≤ row.length → header.length ≤ row.length) →
      (∀ row ∈ body, rowAmountOk hh header ck row = true) →
      ∃ out, parseLoop hh header ck body = some out := by
  intro body
  induction body with
  | nil => exact fun _ _ => ⟨[], rfl⟩
  | cons row rest ih =>
    intro hw ha
    obtain ⟨out, hout⟩ := ih (fun r hr => hw r (List.mem_cons_of_mem _ hr))
      (fun r hr => ha r (List.mem_cons_of_mem _ hr))
    obtain ⟨o, ho⟩ := processRow_some hh header ck row
      (hw row (List.mem_cons_self _ _)) (ha row (List.mem_cons_self _ _))
    cases o with
    | none =>
      refine ⟨out, ?_⟩
      rw [parseLoop]
      simp only [ho]
      exact hout
    | some r =>
      refine ⟨r :: out, ?_⟩
      rw [parseLoop]
      simp only [ho, hout]
      rfl

/-- C2 (amended): a row with fewer than three cells or an unparsable date is
skipped by omission and never aborts the parse, but a per-row defect in the
amount field does abort it — the parse returns a record sequence exactly when
every processed row whose fields extract and whose date parses carries a
numeric amount string (and, when a header is present, no data row with at
least three cells is shorter than the header, which would raise `IndexError`
while building the per-row dict).  An unreadable source aside, an unparsable
amount is thus a second hard-failure mode, refuting "malformed rows never
abort the whole parse" (see the counterexample). -/
theorem parse_statement_csv_total (rows : List (List String))
    (hw : ∀ row ∈ bodyOf rows, hasHeaderOf rows = true → 3 ≤ row.length →
      (headerOf rows).length ≤ row.length)
    (ha : ∀ row ∈ bodyOf rows,
      rowAmountOk (hasHeaderOf rows) (headerOf rows) (catKeyOf rows) row = true) :
    ∃ recs, parse_statement_csv rows = some recs := by
  match rows with
  | [] => exact ⟨[], rfl⟩
  | first :: rest =>
    obtain ⟨out, hout⟩ := parseLoop_total (hasHeaderOf (first :: rest)) (headerOf (first :: rest))
      (catKeyOf (first :: rest)) (bodyOf (first :: rest)) hw ha
    exact ⟨out, hout⟩

theorem parse_statement_csv_total_witness :
    ∃ recs, parse_statement_csv
      [["Date", "Description", "Amount", "Category"],
       ["2024-01-01", " Coffee Shop ", "$1,234.56", "Food"],
       ["oops", "X", "nonum", "c"],
       ["x"]] = some recs :=
  parse_statement_csv_total
    [["Date", "Description", "Amount", "Category"],
     ["2024-01-01", " Coffee Shop ", "$1,234.56", "Food"],
     ["oops", "X", "nonum", "c"],
     ["x"]] (by decide) (by decide)

/-- C2 counterexample: a readable two-row input whose first row has a valid
date and three cells but a non-numeric amount makes the whole parse fail
(`float("abc")` raises an uncaught `ValueError`), although the second row is
perfectly well-formed — a malformed individual row does abort the whole
parse. -/
theorem parse_statement_csv_abort_counterexample :
    parse_statement_csv [["2024-01-01", "Store", "abc"], ["2024-01-02", "Shop", "5"]] = none := by
  decide
